import Mathlib

/-!
Verification development for the 2FA verification core:
the two-factor request lifecycle manager (`TwoFactorAuthManager`)
and the high-risk command detector (`detectHighRiskCommand`).

The TypeScript source is shallowly embedded:
pure functions become Lean functions; the manager's mutable state
(the pending map, the JS object heap of request records, the armed
setTimeout timers, and the promise-resolution calls) becomes an explicit
`ManagerState` record threaded through the operations.
-/

/-! ## Association lists

The JS `Map` (the pending table) and the object heap are modelled as
association lists with the observable operations used by the source:
get, set, delete, size. -/

section AList

variable {α : Type} {β : Type} [DecidableEq α]

/-- Lookup of the first binding of a key, like `Map.get`. -/
def alookup (k : α) : List (α × β) → Option β
  | [] => none
  | e :: rest => if e.1 = k then some e.2 else alookup k rest

/-- Removal of all bindings of a key, like `Map.delete`. -/
def aremove (k : α) : List (α × β) → List (α × β)
  | [] => []
  | e :: rest => if e.1 = k then aremove k rest else e :: aremove k rest

/-- Update-or-insert of a binding, like `Map.set` (observationally:
the key is bound to exactly the new value afterwards). -/
def aset (k : α) (v : β) (m : List (α × β)) : List (α × β) :=
  aremove k m ++ [(k, v)]

/-- In-place mutation of the value stored under a key, modelling a field
assignment on the JS object reached through that key. Other keys keep
their bindings. -/
def aupdate (k : α) (f : β → β) : List (α × β) → List (α × β)
  | [] => []
  | e :: rest =>
    (if e.1 = k then (e.1, f e.2) else e) :: aupdate k f rest

end AList

/-! ## Data model of the lifecycle manager (src two-factor-auth core) -/

/-- `TwoFactorRequestStatus`. -/
inductive TwoFactorRequestStatus where
  | pending
  | verified
  | expired
  | cancelled
deriving DecidableEq

/-- `TwoFactorRequest`: the request record (a mutable JS object). -/
structure TwoFactorRequest where
  id : String
  command : String
  verificationCode : String
  createdAtMs : Int
  expiresAtMs : Int
  status : TwoFactorRequestStatus
  sessionKey : Option String := none
  agentId : Option String := none
  channelId : Option String := none
  userId : Option String := none
  resolvedAtMs : Option Int := none
deriving DecidableEq

/-- `TwoFactorRequestPayload`. -/
structure TwoFactorRequestPayload where
  command : String
  sessionKey : Option String := none
  agentId : Option String := none
  channelId : Option String := none
  userId : Option String := none
deriving DecidableEq

/-- Mock override block of `TwoFactorConfig`. All fields optional in TS. -/
structure MockConfig where
  enabled : Option Bool := none
  authUrl : Option String := none
  code : Option String := none
deriving DecidableEq

/-- `TwoFactorConfig`. `timeoutSeconds` is read through `?? 300` in the
source, so it is modelled as optional. -/
structure TwoFactorConfig where
  enabled : Bool
  timeoutSeconds : Option Int := none
  authBaseUrl : String := ""
  codeLength : Option Nat := none
  mock : Option MockConfig := none
deriving DecidableEq

def DEFAULT_CODE_LENGTH : Nat := 6

def DEFAULT_TIMEOUT_SECONDS : Int := 300

/-- The unambiguous code alphabet from `generateVerificationCode`
(avoids the confusable characters 0/O and 1/I). -/
def codeChars : String := "ABCDEFGHJKLMNPQRSTUVWXYZ23456789"

/-- `generateVerificationCode(length)`. Randomness is an explicit input:
`randomBytes i` is the i-th byte returned by `crypto.randomBytes`.
Each output character is `chars[randomBytes[i] % chars.length]`. -/
def generateVerificationCode (length : Nat) (randomBytes : Nat → Nat) : String :=
  String.mk ((List.range length).map
    (fun i => codeChars.data.getD (randomBytes i % codeChars.length) 'A'))

/-- JS whitespace (the ASCII part of the class `String.prototype.trim`
strips). -/
def isJsSpace (c : Char) : Bool :=
  c = ' ' || c = '\t' || c = '\n' || c = '\r' || c = '\x0b' || c = '\x0c'

/-- `String.prototype.trim()`: strip whitespace from both ends. -/
def jsTrim (s : String) : String :=
  String.mk (((s.data.dropWhile isJsSpace).reverse.dropWhile isJsSpace).reverse)

/-- `String.prototype.toUpperCase()` on the code alphabet (ASCII). -/
def jsToUpper (s : String) : String :=
  String.mk (s.data.map Char.toUpper)

/-- Result value of `verify`: `{ success: boolean; error?: string }`. -/
structure VerifyResult where
  success : Bool
  error : Option String := none
deriving DecidableEq

/-- State of a `TwoFactorAuthManager` instance together with the parts of
the runtime it interacts with:

* `heap` — the JS object graph: every `TwoFactorRequest` object allocated
  by `create`, addressed by its id (`create` uses fresh UUIDs). Entries in
  the pending map alias these objects, so a field assignment through an
  entry is visible through every reference; `aupdate` models that.
* `pending` — the manager's `pending: Map<string, PendingEntry>`; an entry
  stores the timer handle of its `setTimeout` (the request pointer is the
  key itself, resolved through `heap`).
* `timers` — armed `setTimeout` timers: handle to the request id captured
  by the callback. `clearTimeout` and firing remove a handle.
* `nextTimer` — source of fresh timer handles.
* `wakes` — log of `resolve(...)` calls on the per-request promises,
  as (request id, resolved value). -/
structure ManagerState where
  config : TwoFactorConfig
  heap : List (String × TwoFactorRequest) := []
  pending : List (String × Nat) := []
  timers : List (Nat × String) := []
  nextTimer : Nat := 0
  wakes : List (String × Bool) := []
deriving DecidableEq

/-- Fresh manager over a config (the constructor). -/
def initManager (config : TwoFactorConfig) : ManagerState :=
  { config := config }

namespace TwoFactorAuthManager

/-- `create(payload)`. `now` is `Date.now()`, `freshId` the result of
`crypto.randomUUID()`, `randomBytes` the random source. The mock code is
`this.config.mock?.enabled === true ? this.config.mock.code?.trim() || "123456" : null`
(JS `||` falls back when the trimmed string is empty). The new object is
allocated on the heap and returned; the pending map is not touched and no
timer is registered. -/
def create (s : ManagerState) (payload : TwoFactorRequestPayload)
    (now : Int) (freshId : String) (randomBytes : Nat → Nat) :
    ManagerState × TwoFactorRequest :=
  let timeoutMs := (s.config.timeoutSeconds.getD DEFAULT_TIMEOUT_SECONDS) * 1000
  let codeLength := s.config.codeLength.getD DEFAULT_CODE_LENGTH
  let mockCode : Option String :=
    match s.config.mock with
    | some m =>
      if m.enabled = some true then
        some (match m.code with
          | some c => if jsTrim c = "" then "123456" else jsTrim c
          | none => "123456")
      else none
    | none => none
  let request : TwoFactorRequest :=
    { id := freshId
      command := payload.command
      verificationCode := mockCode.getD (generateVerificationCode codeLength randomBytes)
      createdAtMs := now
      expiresAtMs := now + timeoutMs
      status := .pending
      sessionKey := payload.sessionKey
      agentId := payload.agentId
      channelId := payload.channelId
      userId := payload.userId
      resolvedAtMs := none }
  ({ s with heap := aset freshId request s.heap }, request)

/-- `waitForVerification(request)`. The caller passes a request object;
here it is addressed by its id in the heap. Returns `some false` when the
deadline already passed (the promise settles at once), `none` when the
caller is left suspended on the new promise. In the second case a timer is
armed and the entry is stored in the pending map. -/
def waitForVerification (s : ManagerState) (id : String) (now : Int) :
    ManagerState × Option Bool :=
  match alookup id s.heap with
  | none => (s, none)
  | some request =>
    let timeoutMs := request.expiresAtMs - now
    if timeoutMs ≤ 0 then
      ({ s with heap := aupdate id (fun r => { r with status := .expired }) s.heap },
       some false)
    else
      let t := s.nextTimer
      ({ s with
          timers := aset t id s.timers
          pending := aset id t s.pending
          nextTimer := s.nextTimer + 1 },
       none)

/-- `verify(requestId, code)`. `now` is `Date.now()`. -/
def verify (s : ManagerState) (requestId : String) (code : String) (now : Int) :
    ManagerState × VerifyResult :=
  match alookup requestId s.pending with
  | none => (s, { success := false, error := some "Request not found or expired" })
  | some timer =>
    match alookup requestId s.heap with
    | none => (s, { success := false, error := some "Request not found or expired" })
    | some request =>
      if request.expiresAtMs < now then
        ({ s with
            timers := aremove timer s.timers
            pending := aremove requestId s.pending
            heap := aupdate requestId (fun r => { r with status := .expired }) s.heap
            wakes := s.wakes ++ [(requestId, false)] },
         { success := false, error := some "Request expired" })
      else
        let normalizedInput := jsToUpper (jsTrim code)
        let normalizedExpected := jsToUpper (jsTrim request.verificationCode)
        if normalizedInput ≠ normalizedExpected then
          (s, { success := false, error := some "Invalid verification code" })
        else
          ({ s with
              timers := aremove timer s.timers
              pending := aremove requestId s.pending
              heap := aupdate requestId
                (fun r => { r with status := .verified, resolvedAtMs := some now }) s.heap
              wakes := s.wakes ++ [(requestId, true)] },
           { success := true, error := none })

/-- `cancel(requestId)`. -/
def cancel (s : ManagerState) (requestId : String) : ManagerState × Bool :=
  match alookup requestId s.pending with
  | none => (s, false)
  | some timer =>
    ({ s with
        timers := aremove timer s.timers
        pending := aremove requestId s.pending
        heap := aupdate requestId (fun r => { r with status := .cancelled }) s.heap
        wakes := s.wakes ++ [(requestId, false)] },
     true)

/-- `getRequest(requestId)`: `this.pending.get(requestId)?.request ?? null`. -/
def getRequest (s : ManagerState) (requestId : String) : Option TwoFactorRequest :=
  match alookup requestId s.pending with
  | none => none
  | some _ => alookup requestId s.heap

/-- `getPendingCount()`. -/
def getPendingCount (s : ManagerState) : Nat :=
  s.pending.length

/-- Firing of an armed deadline timer. The callback captured its request:
it deletes that id from the pending map, marks the request expired and
resolves the promise with false. A cleared or already-fired handle does
nothing. -/
def timerFire (s : ManagerState) (t : Nat) : ManagerState :=
  match alookup t s.timers with
  | none => s
  | some id =>
    { s with
        timers := aremove t s.timers
        pending := aremove id s.pending
        heap := aupdate id (fun r => { r with status := .expired }) s.heap
        wakes := s.wakes ++ [(id, false)] }

end TwoFactorAuthManager

/-! ## High-risk command detector (src high-risk detector module)

The JS `RegExp.test` calls are embedded through a small regular-expression
engine (Brzozowski derivatives). Each default pattern either starts with a
caret (so `test` is: some prefix of the input matches the body), is
caret-and-dollar anchored (full match), or is delimited by word boundaries
around a body that begins and ends with word characters (so `test` is:
some substring delimited by word boundaries matches the body). The `i`
flag is embedded by case-insensitive character classes. -/

/-- Severity levels of `HighRiskPattern`. -/
inductive Severity where
  | critical
  | high
  | medium
deriving DecidableEq

/-- `HighRiskPattern`; `test` embeds `pattern.test` of the compiled
`RegExp`. -/
structure HighRiskPattern where
  id : String
  test : String → Bool
  description : String
  severity : Severity

/-- `HighRiskDetectorConfig`. -/
structure HighRiskDetectorConfig where
  enabled : Bool
  customPatterns : Option (List HighRiskPattern) := none
  disabledPatternIds : Option (List String) := none

/-- `isHighRiskDetectionEnabled(config?)`. -/
def isHighRiskDetectionEnabled (config : Option HighRiskDetectorConfig) : Bool :=
  (config.map (fun c => c.enabled)).getD false

/-! ## Interleaved executions of the manager

Concurrent actors (the waiting flow, code submission, cancellation, and
the deadline callbacks) are modelled as interleavings: a trace is a list
of operations applied in some order. Runtime guarantees that the source
relies on are captured by `wfFrom`: `crypto.randomUUID()` never repeats
an id, and each request's promise is awaited through exactly one
`waitForVerification` call (the caller creates a request and then waits
on it once, as the gateway integration does). -/

/-- One manager operation of one actor. `now` parameters are the values
`Date.now()` returns inside the call. -/
inductive Op where
  | create (payload : TwoFactorRequestPayload) (now : Int) (freshId : String)
      (randomBytes : Nat → Nat)
  | wait (id : String) (now : Int)
  | verify (id : String) (code : String) (now : Int)
  | cancel (id : String)
  | timerFire (t : Nat)

/-- Effect of one operation on the state. -/
def mgrStep (s : ManagerState) : Op → ManagerState
  | .create payload now freshId randomBytes =>
    (TwoFactorAuthManager.create s payload now freshId randomBytes).1
  | .wait id now => (TwoFactorAuthManager.waitForVerification s id now).1
  | .verify id code now => (TwoFactorAuthManager.verify s id code now).1
  | .cancel id => (TwoFactorAuthManager.cancel s id).1
  | .timerFire t => TwoFactorAuthManager.timerFire s t

/-- Effect of a trace. -/
def mgrRun (s : ManagerState) : List Op → ManagerState
  | [] => s
  | o :: ops => mgrRun (mgrStep s o) ops

/-- Runtime-guarantee check for one operation, given the ids already
created and the ids already waited on. -/
def opOk (created waited : List String) : Op → Bool
  | .create _ _ id _ => !(decide (id ∈ created))
  | .wait id _ => !(decide (id ∈ waited))
  | .verify _ _ _ => true
  | .cancel _ => true
  | .timerFire _ => true

/-- Accumulator update for `wfFrom`. -/
def opAcc (created waited : List String) : Op → List String × List String
  | .create _ _ id _ => (id :: created, waited)
  | .wait id _ => (created, id :: waited)
  | .verify _ _ _ => (created, waited)
  | .cancel _ => (created, waited)
  | .timerFire _ => (created, waited)

/-- Well-formed trace: fresh ids at `create`, at most one
`waitForVerification` per request id. -/
def wfFrom (created waited : List String) : List Op → Bool
  | [] => true
  | o :: ops =>
    opOk created waited o && wfFrom (opAcc created waited o).1 (opAcc created waited o).2 ops

/-- Accumulated (created, waited) ids after a trace. -/
def accAfter (created waited : List String) : List Op → List String × List String
  | [] => (created, waited)
  | o :: ops => accAfter (opAcc created waited o).1 (opAcc created waited o).2 ops

/-- Number of promise resolutions a request id has received. -/
def countWakes (wakes : List (String × Bool)) (id : String) : Nat :=
  (wakes.filter (fun e => decide (e.1 = id))).length

/-- State invariant of the manager under well-formed traces, relative to
the ids created and waited on so far. -/
structure MgrInv (created waited : List String) (s : ManagerState) : Prop where
  pt : ∀ id t, alookup id s.pending = some t → alookup t s.timers = some id
  tp : ∀ t id, alookup t s.timers = some id → alookup id s.pending = some t
  entryPending : ∀ id t, alookup id s.pending = some t →
    ∃ r, alookup id s.heap = some r ∧ r.status = .pending
  heapCreated : ∀ id r, alookup id s.heap = some r → id ∈ created
  terminalWaited : ∀ id r, alookup id s.heap = some r →
    r.status ≠ .pending → id ∈ waited
  entryWaited : ∀ id t, alookup id s.pending = some t → id ∈ waited
  timerLt : ∀ t id, alookup t s.timers = some id → t < s.nextTimer
  wakeLe : ∀ id, countWakes s.wakes id ≤ 1
  wakeDone : ∀ id, countWakes s.wakes id = 1 →
    id ∈ waited ∧ alookup id s.pending = none
/-- A trace is well formed when run from a fresh manager. -/
def wfTrace (ops : List Op) : Bool :=
  wfFrom [] [] ops

/-! ## Concrete fixtures used to instantiate the theorems -/

/-- A fixed random source. -/
def rbZero : Nat → Nat := fun _ => 0

/-- A config with the mock override enabled and no mock code configured,
so created requests store the default mock code "123456". -/
def mockCfg : TwoFactorConfig :=
  { enabled := true
    timeoutSeconds := some 300
    authBaseUrl := "https://example.test"
    mock := some { enabled := some true, authUrl := none, code := none } }

/-- A config whose mock code is configured with surrounding whitespace. -/
def mockCfgPadded : TwoFactorConfig :=
  { enabled := true
    timeoutSeconds := some 300
    authBaseUrl := "https://example.test"
    mock := some { enabled := some true, authUrl := none, code := some " ab12cd " } }

def payloadA : TwoFactorRequestPayload := { command := "rm -rf /" }

/-- The request object `create` builds from `payloadA` under `mockCfg`
at time 0 with id "r1". -/
def reqA : TwoFactorRequest :=
  { id := "r1"
    command := "rm -rf /"
    verificationCode := "123456"
    createdAtMs := 0
    expiresAtMs := 300000
    status := .pending }

/-- A state holding one created request. -/
def sCreated : ManagerState :=
  mgrRun (initManager mockCfg) [.create payloadA 0 "r1" rbZero]

/-- A state holding one created request with a registered waiter. -/
def sReg : ManagerState :=
  mgrRun (initManager mockCfg) [.create payloadA 0 "r1" rbZero, .wait "r1" 0]

/-- Create, wait, cancel: the request reaches the cancelled state. -/
def traceCancelled : List Op :=
  [.create payloadA 0 "r1" rbZero, .wait "r1" 0, .cancel "r1"]

/-- The same trace followed by a second wait on the same request. -/
def traceDoubleWait : List Op :=
  [.create payloadA 0 "r1" rbZero, .wait "r1" 0, .cancel "r1", .wait "r1" 0]

/-- The same trace where the second wait is followed by a correct
code submission. -/
def traceRevived : List Op :=
  [.create payloadA 0 "r1" rbZero, .wait "r1" 0, .cancel "r1", .wait "r1" 0,
   .verify "r1" "123456" 0]

section AListLemmas

variable {α : Type} {β : Type} [DecidableEq α]

theorem alookup_append (k : α) (l₁ l₂ : List (α × β)) :
    alookup k (l₁ ++ l₂) =
      (match alookup k l₁ with
       | some v => some v
       | none => alookup k l₂) := by
  induction l₁ with
  | nil => simp [alookup]
  | cons e rest ih => by_cases h : e.1 = k <;> simp [alookup, h, ih]

theorem alookup_aremove_self (k : α) (m : List (α × β)) :
    alookup k (aremove k m) = none := by
  induction m with
  | nil => simp [aremove, alookup]
  | cons e rest ih => by_cases h : e.1 = k <;> simp [aremove, alookup, h, ih]

theorem alookup_aremove_ne {k' k : α} (h : k' ≠ k) (m : List (α × β)) :
    alookup k' (aremove k m) = alookup k' m := by
  have hkk : ¬(k = k') := fun hx => h hx.symm
  induction m with
  | nil => simp [aremove]
  | cons e rest ih =>
    by_cases h1 : e.1 = k
    · simp [aremove, alookup, h1, hkk, ih]
    · by_cases h2 : e.1 = k' <;> simp [aremove, alookup, h1, h2, h, ih]

theorem alookup_aset_self (k : α) (v : β) (m : List (α × β)) :
    alookup k (aset k v m) = some v := by
  unfold aset
  rw [alookup_append, alookup_aremove_self]
  simp [alookup]

theorem alookup_aset_ne {k' k : α} (h : k' ≠ k) (v : β) (m : List (α × β)) :
    alookup k' (aset k v m) = alookup k' m := by
  unfold aset
  rw [alookup_append]
  have h2 : ¬(k = k') := fun hx => h hx.symm
  cases hq : alookup k' (aremove k m) with
  | none =>
    rw [alookup_aremove_ne h] at hq
    simp [alookup, hq, h2]
  | some v₂ =>
    rw [alookup_aremove_ne h] at hq
    simp [hq]

theorem alookup_aupdate_self (k : α) (f : β → β) (m : List (α × β)) :
    alookup k (aupdate k f m) = (alookup k m).map f := by
  induction m with
  | nil => simp [aupdate, alookup]
  | cons e rest ih => by_cases h : e.1 = k <;> simp [aupdate, alookup, h, ih]

theorem alookup_aupdate_ne {k' k : α} (h : k' ≠ k) (f : β → β)
    (m : List (α × β)) :
    alookup k' (aupdate k f m) = alookup k' m := by
  have hkk : ¬(k = k') := fun hx => h hx.symm
  induction m with
  | nil => simp [aupdate]
  | cons e rest ih =>
    by_cases h1 : e.1 = k
    · simp [aupdate, alookup, h1, hkk, ih]
    · by_cases h2 : e.1 = k' <;> simp [aupdate, alookup, h1, h2, h, ih]

end AListLemmas

theorem countWakes_append_self (wakes : List (String × Bool)) (id : String) (b : Bool) :
    countWakes (wakes ++ [(id, b)]) id = countWakes wakes id + 1 := by
  simp [countWakes]

theorem countWakes_append_ne {id' id : String} (h : id' ≠ id)
    (wakes : List (String × Bool)) (b : Bool) :
    countWakes (wakes ++ [(id, b)]) id' = countWakes wakes id' := by
  have hkk : ¬(id = id') := fun hx => h hx.symm
  simp [countWakes, hkk]

theorem mgrRun_append (s : ManagerState) (l₁ l₂ : List Op) :
    mgrRun s (l₁ ++ l₂) = mgrRun (mgrRun s l₁) l₂ := by
  induction l₁ generalizing s with
  | nil => simp [mgrRun]
  | cons o ops ih => simp [mgrRun, ih]

theorem wfFrom_append {c w : List String} {l₁ l₂ : List Op}
    (h : wfFrom c w (l₁ ++ l₂) = true) :
    wfFrom c w l₁ = true ∧
      wfFrom (accAfter c w l₁).1 (accAfter c w l₁).2 l₂ = true := by
  induction l₁ generalizing c w with
  | nil => exact ⟨rfl, h⟩
  | cons o ops ih =>
    rw [List.cons_append, wfFrom, Bool.and_eq_true] at h
    obtain ⟨h1, h2⟩ := ih h.2
    exact ⟨by rw [wfFrom, Bool.and_eq_true]; exact ⟨h.1, h1⟩, h2⟩

/-! ## Branch equations of the manager operations -/

namespace TwoFactorAuthManager

theorem create_state (s : ManagerState) (payload : TwoFactorRequestPayload)
    (now : Int) (freshId : String) (randomBytes : Nat → Nat) :
    (create s payload now freshId randomBytes).1 =
      { s with heap := aset freshId (create s payload now freshId randomBytes).2 s.heap } :=
  rfl

theorem create_status (s : ManagerState) (payload : TwoFactorRequestPayload)
    (now : Int) (freshId : String) (randomBytes : Nat → Nat) :
    (create s payload now freshId randomBytes).2.status = .pending :=
  rfl

theorem wait_eq_missing (s : ManagerState) (id : String) (now : Int)
    (h : alookup id s.heap = none) :
    waitForVerification s id now = (s, none) := by
  unfold waitForVerification
  rw [h]

theorem wait_eq_expired (s : ManagerState) (id : String) (now : Int)
    (req : TwoFactorRequest) (h : alookup id s.heap = some req)
    (hto : req.expiresAtMs - now ≤ 0) :
    waitForVerification s id now =
      ({ s with heap := aupdate id (fun r => { r with status := .expired }) s.heap },
       some false) := by
  unfold waitForVerification
  rw [h]
  simp [hto]

theorem wait_eq_register (s : ManagerState) (id : String) (now : Int)
    (req : TwoFactorRequest) (h : alookup id s.heap = some req)
    (hto : ¬(req.expiresAtMs - now ≤ 0)) :
    waitForVerification s id now =
      ({ s with
          timers := aset s.nextTimer id s.timers
          pending := aset id s.nextTimer s.pending
          nextTimer := s.nextTimer + 1 },
       none) := by
  unfold waitForVerification
  rw [h]
  simp [hto]

theorem verify_eq_notFound (s : ManagerState) (id code : String) (now : Int)
    (h : alookup id s.pending = none) :
    verify s id code now =
      (s, { success := false, error := some "Request not found or expired" }) := by
  unfold verify
  rw [h]

theorem verify_eq_ghost (s : ManagerState) (id code : String) (now : Int)
    (t : Nat) (hp : alookup id s.pending = some t)
    (hh : alookup id s.heap = none) :
    verify s id code now =
      (s, { success := false, error := some "Request not found or expired" }) := by
  unfold verify
  rw [hp, hh]

theorem verify_eq_expired (s : ManagerState) (id code : String) (now : Int)
    (t : Nat) (req : TwoFactorRequest)
    (hp : alookup id s.pending = some t) (hh : alookup id s.heap = some req)
    (hex : req.expiresAtMs < now) :
    verify s id code now =
      ({ s with
          timers := aremove t s.timers
          pending := aremove id s.pending
          heap := aupdate id (fun r => { r with status := .expired }) s.heap
          wakes := s.wakes ++ [(id, false)] },
       { success := false, error := some "Request expired" }) := by
  unfold verify
  rw [hp, hh]
  simp [hex]

theorem verify_eq_invalid (s : ManagerState) (id code : String) (now : Int)
    (t : Nat) (req : TwoFactorRequest)
    (hp : alookup id s.pending = some t) (hh : alookup id s.heap = some req)
    (hex : ¬(req.expiresAtMs < now))
    (hne : jsToUpper (jsTrim code) ≠ jsToUpper (jsTrim req.verificationCode)) :
    verify s id code now =
      (s, { success := false, error := some "Invalid verification code" }) := by
  unfold verify
  rw [hp, hh]
  simp [hex, hne]

theorem verify_eq_success (s : ManagerState) (id code : String) (now : Int)
    (t : Nat) (req : TwoFactorRequest)
    (hp : alookup id s.pending = some t) (hh : alookup id s.heap = some req)
    (hex : ¬(req.expiresAtMs < now))
    (heq : jsToUpper (jsTrim code) = jsToUpper (jsTrim req.verificationCode)) :
    verify s id code now =
      ({ s with
          timers := aremove t s.timers
          pending := aremove id s.pending
          heap := aupdate id
            (fun r => { r with status := .verified, resolvedAtMs := some now }) s.heap
          wakes := s.wakes ++ [(id, true)] },
       { success := true, error := none }) := by
  unfold verify
  rw [hp, hh]
  simp [hex, heq]

theorem cancel_eq_notFound (s : ManagerState) (id : String)
    (h : alookup id s.pending = none) :
    cancel s id = (s, false) := by
  unfold cancel
  rw [h]

theorem cancel_eq_found (s : ManagerState) (id : String) (t : Nat)
    (hp : alookup id s.pending = some t) :
    cancel s id =
      ({ s with
          timers := aremove t s.timers
          pending := aremove id s.pending
          heap := aupdate id (fun r => { r with status := .cancelled }) s.heap
          wakes := s.wakes ++ [(id, false)] },
       true) := by
  unfold cancel
  rw [hp]

theorem timerFire_eq_cleared (s : ManagerState) (t : Nat)
    (h : alookup t s.timers = none) :
    timerFire s t = s := by
  unfold timerFire
  rw [h]

theorem timerFire_eq_armed (s : ManagerState) (t : Nat) (id : String)
    (h : alookup t s.timers = some id) :
    timerFire s t =
      { s with
          timers := aremove t s.timers
          pending := aremove id s.pending
          heap := aupdate id (fun r => { r with status := .expired }) s.heap
          wakes := s.wakes ++ [(id, false)] } := by
  unfold timerFire
  rw [h]

end TwoFactorAuthManager

/-! ## Invariant preservation -/

theorem inv_init (config : TwoFactorConfig) : MgrInv [] [] (initManager config) := by
  constructor
  case pt => intro a b hab; simp [initManager, alookup] at hab
  case tp => intro a b hab; simp [initManager, alookup] at hab
  case entryPending => intro a b hab; simp [initManager, alookup] at hab
  case heapCreated => intro a b hab; simp [initManager, alookup] at hab
  case terminalWaited => intro a b hab; simp [initManager, alookup] at hab
  case entryWaited => intro a b hab; simp [initManager, alookup] at hab
  case timerLt => intro a b hab; simp [initManager, alookup] at hab
  case wakeLe => intro a; simp [initManager, countWakes]
  case wakeDone => intro a hab; simp [initManager, countWakes] at hab

theorem inv_create (c w : List String) (s : ManagerState)
    (payload : TwoFactorRequestPayload) (now : Int) (id : String)
    (rb : Nat → Nat) (hInv : MgrInv c w s) (hid : id ∉ c) :
    MgrInv (id :: c) w (TwoFactorAuthManager.create s payload now id rb).1 := by
  rw [TwoFactorAuthManager.create_state]
  set req := (TwoFactorAuthManager.create s payload now id rb).2 with hreq
  have hst : req.status = .pending := TwoFactorAuthManager.create_status s payload now id rb
  constructor
  case pt => exact hInv.pt
  case tp => exact hInv.tp
  case entryPending =>
    intro id₂ t₂ h
    obtain ⟨r, hr, hrs⟩ := hInv.entryPending id₂ t₂ h
    by_cases he : id₂ = id
    · subst he
      exact absurd (hInv.heapCreated id₂ r hr) hid
    · refine ⟨r, ?_, hrs⟩
      show alookup id₂ (aset id req s.heap) = some r
      rw [alookup_aset_ne he]
      exact hr
  case heapCreated =>
    intro id₂ r h
    by_cases he : id₂ = id
    · subst he
      exact List.mem_cons_self _ _
    · have hr : alookup id₂ s.heap = some r := by
        have hh : alookup id₂ (aset id req s.heap) = some r := h
        rw [alookup_aset_ne he] at hh
        exact hh
      exact List.mem_cons_of_mem _ (hInv.heapCreated id₂ r hr)
  case terminalWaited =>
    intro id₂ r h hrs
    by_cases he : id₂ = id
    · subst he
      have hh : alookup id₂ (aset id₂ req s.heap) = some r := h
      rw [alookup_aset_self] at hh
      injection hh with hh
      exact absurd (hh ▸ hst) hrs
    · have hr : alookup id₂ s.heap = some r := by
        have hh : alookup id₂ (aset id req s.heap) = some r := h
        rw [alookup_aset_ne he] at hh
        exact hh
      exact hInv.terminalWaited id₂ r hr hrs
  case entryWaited => exact hInv.entryWaited
  case timerLt => exact hInv.timerLt
  case wakeLe => exact hInv.wakeLe
  case wakeDone => exact hInv.wakeDone

theorem inv_wait (c w : List String) (s : ManagerState) (id : String)
    (now : Int) (hInv : MgrInv c w s) (hid : id ∉ w) :
    MgrInv c (id :: w) (TwoFactorAuthManager.waitForVerification s id now).1 := by
  have hmono : ∀ x, x ∈ w → x ∈ id :: w := fun x hx => List.mem_cons_of_mem _ hx
  cases hh : alookup id s.heap with
  | none =>
    rw [TwoFactorAuthManager.wait_eq_missing s id now hh]
    exact
      { pt := hInv.pt, tp := hInv.tp, entryPending := hInv.entryPending
        heapCreated := hInv.heapCreated
        terminalWaited := fun i r h hn => hmono _ (hInv.terminalWaited i r h hn)
        entryWaited := fun i t h => hmono _ (hInv.entryWaited i t h)
        timerLt := hInv.timerLt, wakeLe := hInv.wakeLe
        wakeDone := fun i h => ⟨hmono _ ((hInv.wakeDone i h).1), (hInv.wakeDone i h).2⟩ }
  | some req =>
    by_cases hto : req.expiresAtMs - now ≤ 0
    · rw [TwoFactorAuthManager.wait_eq_expired s id now req hh hto]
      refine ⟨?_, ?_, ?_, ?_, ?_, ?_, ?_, ?_, ?_⟩
      · exact hInv.pt
      · exact hInv.tp
      · -- entryPending
        intro id₂ t₂ h
        have hne : id₂ ≠ id := by
          intro he
          exact hid (he ▸ hInv.entryWaited id₂ t₂ h)
        obtain ⟨r, hr, hrs⟩ := hInv.entryPending id₂ t₂ h
        refine ⟨r, ?_, hrs⟩
        show alookup id₂ (aupdate id _ s.heap) = some r
        rw [alookup_aupdate_ne hne]
        exact hr
      · -- heapCreated
        intro id₂ r h
        by_cases he : id₂ = id
        · subst he
          exact hInv.heapCreated id₂ req hh
        · have h2 := h
          rw [alookup_aupdate_ne he] at h2
          exact hInv.heapCreated id₂ r h2
      · -- terminalWaited
        intro id₂ r h hrs
        by_cases he : id₂ = id
        · subst he
          exact List.mem_cons_self _ _
        · have h2 := h
          rw [alookup_aupdate_ne he] at h2
          exact hmono _ (hInv.terminalWaited id₂ r h2 hrs)
      · exact fun i t h => hmono _ (hInv.entryWaited i t h)
      · exact hInv.timerLt
      · exact hInv.wakeLe
      · exact fun i h => ⟨hmono _ ((hInv.wakeDone i h).1), (hInv.wakeDone i h).2⟩
    · rw [TwoFactorAuthManager.wait_eq_register s id now req hh hto]
      have hpnone : alookup id s.pending = none := by
        cases hq : alookup id s.pending with
        | none => rfl
        | some t' => exact absurd (hInv.entryWaited id t' hq) hid
      have htnone : alookup s.nextTimer s.timers = none := by
        cases hq : alookup s.nextTimer s.timers with
        | none => rfl
        | some id' => exact absurd (hInv.timerLt s.nextTimer id' hq) (lt_irrefl _)
      refine ⟨?_, ?_, ?_, ?_, ?_, ?_, ?_, ?_, ?_⟩
      · -- pt
        intro id₂ t₂ h
        by_cases he : id₂ = id
        · subst he
          have h2 : alookup id₂ (aset id₂ s.nextTimer s.pending) = some t₂ := h
          rw [alookup_aset_self] at h2
          injection h2 with h2
          rw [← h2, alookup_aset_self]
        · have h2 : alookup id₂ s.pending = some t₂ := by
            have h3 : alookup id₂ (aset id s.nextTimer s.pending) = some t₂ := h
            rw [alookup_aset_ne he] at h3
            exact h3
          have h4 := hInv.pt id₂ t₂ h2
          have hne : t₂ ≠ s.nextTimer := by
            intro ht
            rw [ht, htnone] at h4
            exact Option.noConfusion h4
          show alookup t₂ (aset s.nextTimer id s.timers) = some id₂
          rw [alookup_aset_ne hne]
          exact h4
      · -- tp
        intro t₂ id₂ h
        by_cases he : t₂ = s.nextTimer
        · subst he
          have h2 : alookup s.nextTimer (aset s.nextTimer id s.timers) = some id₂ := h
          rw [alookup_aset_self] at h2
          injection h2 with h2
          subst h2
          rw [alookup_aset_self]
        · have h2 : alookup t₂ s.timers = some id₂ := by
            have h3 : alookup t₂ (aset s.nextTimer id s.timers) = some id₂ := h
            rw [alookup_aset_ne he] at h3
            exact h3
          have h4 := hInv.tp t₂ id₂ h2
          have hne : id₂ ≠ id := by
            intro ht
            rw [ht, hpnone] at h4
            exact Option.noConfusion h4
          show alookup id₂ (aset id s.nextTimer s.pending) = some t₂
          rw [alookup_aset_ne hne]
          exact h4
      · -- entryPending
        intro id₂ t₂ h
        by_cases he : id₂ = id
        · subst he
          refine ⟨req, hh, ?_⟩
          by_cases hrs : req.status = .pending
          · exact hrs
          · exact absurd (hInv.terminalWaited id₂ req hh hrs) hid
        · have h2 : alookup id₂ s.pending = some t₂ := by
            have h3 : alookup id₂ (aset id s.nextTimer s.pending) = some t₂ := h
            rw [alookup_aset_ne he] at h3
            exact h3
          exact hInv.entryPending id₂ t₂ h2
      · exact hInv.heapCreated
      · exact fun i r h hn => hmono _ (hInv.terminalWaited i r h hn)
      · -- entryWaited
        intro id₂ t₂ h
        by_cases he : id₂ = id
        · subst he
          exact List.mem_cons_self _ _
        · have h2 : alookup id₂ s.pending = some t₂ := by
            have h3 : alookup id₂ (aset id s.nextTimer s.pending) = some t₂ := h
            rw [alookup_aset_ne he] at h3
            exact h3
          exact hmono _ (hInv.entryWaited id₂ t₂ h2)
      · -- timerLt
        intro t₂ id₂ h
        by_cases he : t₂ = s.nextTimer
        · subst he
          exact Nat.lt_succ_self _
        · have h2 : alookup t₂ s.timers = some id₂ := by
            have h3 : alookup t₂ (aset s.nextTimer id s.timers) = some id₂ := h
            rw [alookup_aset_ne he] at h3
            exact h3
          exact Nat.lt_succ_of_lt (hInv.timerLt t₂ id₂ h2)
      · exact hInv.wakeLe
      · -- wakeDone
        intro id₂ h
        obtain ⟨hw, hpn⟩ := hInv.wakeDone id₂ h
        have hne : id₂ ≠ id := by
          intro he
          exact hid (he ▸ hw)
        refine ⟨hmono _ hw, ?_⟩
        show alookup id₂ (aset id s.nextTimer s.pending) = none
        rw [alookup_aset_ne hne]
        exact hpn

theorem inv_resolve (c w : List String) (s : ManagerState) (id₀ : String)
    (t₀ : Nat) (f : TwoFactorRequest → TwoFactorRequest) (b : Bool)
    (hInv : MgrInv c w s) (hpe : alookup id₀ s.pending = some t₀) :
    MgrInv c w
      { s with
          timers := aremove t₀ s.timers
          pending := aremove id₀ s.pending
          heap := aupdate id₀ f s.heap
          wakes := s.wakes ++ [(id₀, b)] } := by
  have hte : alookup t₀ s.timers = some id₀ := hInv.pt id₀ t₀ hpe
  refine ⟨?_, ?_, ?_, ?_, ?_, ?_, ?_, ?_, ?_⟩
  · -- pt
    intro id₂ t₂ h
    have hne : id₂ ≠ id₀ := by
      intro he
      rw [he] at h
      rw [alookup_aremove_self] at h
      exact Option.noConfusion h
    have h2 : alookup id₂ s.pending = some t₂ := by
      have h3 : alookup id₂ (aremove id₀ s.pending) = some t₂ := h
      rw [alookup_aremove_ne hne] at h3
      exact h3
    have h4 := hInv.pt id₂ t₂ h2
    have htne : t₂ ≠ t₀ := by
      intro ht
      rw [ht, hte] at h4
      injection h4 with h4
      exact hne h4.symm
    show alookup t₂ (aremove t₀ s.timers) = some id₂
    rw [alookup_aremove_ne htne]
    exact h4
  · -- tp
    intro t₂ id₂ h
    have htne : t₂ ≠ t₀ := by
      intro he
      rw [he] at h
      rw [alookup_aremove_self] at h
      exact Option.noConfusion h
    have h2 : alookup t₂ s.timers = some id₂ := by
      have h3 : alookup t₂ (aremove t₀ s.timers) = some id₂ := h
      rw [alookup_aremove_ne htne] at h3
      exact h3
    have h4 := hInv.tp t₂ id₂ h2
    have hne : id₂ ≠ id₀ := by
      intro ht
      rw [ht, hpe] at h4
      injection h4 with h4
      exact htne h4.symm
    show alookup id₂ (aremove id₀ s.pending) = some t₂
    rw [alookup_aremove_ne hne]
    exact h4
  · -- entryPending
    intro id₂ t₂ h
    have hne : id₂ ≠ id₀ := by
      intro he
      rw [he] at h
      rw [alookup_aremove_self] at h
      exact Option.noConfusion h
    have h2 : alookup id₂ s.pending = some t₂ := by
      have h3 : alookup id₂ (aremove id₀ s.pending) = some t₂ := h
      rw [alookup_aremove_ne hne] at h3
      exact h3
    obtain ⟨r, hr, hrs⟩ := hInv.entryPending id₂ t₂ h2
    refine ⟨r, ?_, hrs⟩
    show alookup id₂ (aupdate id₀ f s.heap) = some r
    rw [alookup_aupdate_ne hne]
    exact hr
  · -- heapCreated
    intro id₂ r h
    by_cases he : id₂ = id₀
    · subst he
      have h2 : alookup id₂ (aupdate id₂ f s.heap) = (alookup id₂ s.heap).map f :=
        alookup_aupdate_self id₂ f s.heap
      have h3 := h
      rw [h2] at h3
      cases hq : alookup id₂ s.heap with
      | none =>
        rw [hq] at h3
        exact Option.noConfusion h3
      | some r₀ => exact hInv.heapCreated id₂ r₀ hq
    · have h2 := h
      rw [alookup_aupdate_ne he] at h2
      exact hInv.heapCreated id₂ r h2
  · -- terminalWaited
    intro id₂ r h hrs
    by_cases he : id₂ = id₀
    · subst he
      exact hInv.entryWaited id₂ t₀ hpe
    · have h2 := h
      rw [alookup_aupdate_ne he] at h2
      exact hInv.terminalWaited id₂ r h2 hrs
  · -- entryWaited
    intro id₂ t₂ h
    have hne : id₂ ≠ id₀ := by
      intro he
      rw [he] at h
      rw [alookup_aremove_self] at h
      exact Option.noConfusion h
    have h2 : alookup id₂ s.pending = some t₂ := by
      have h3 : alookup id₂ (aremove id₀ s.pending) = some t₂ := h
      rw [alookup_aremove_ne hne] at h3
      exact h3
    exact hInv.entryWaited id₂ t₂ h2
  · -- timerLt
    intro t₂ id₂ h
    have htne : t₂ ≠ t₀ := by
      intro he
      rw [he] at h
      rw [alookup_aremove_self] at h
      exact Option.noConfusion h
    have h2 : alookup t₂ s.timers = some id₂ := by
      have h3 : alookup t₂ (aremove t₀ s.timers) = some id₂ := h
      rw [alookup_aremove_ne htne] at h3
      exact h3
    exact hInv.timerLt t₂ id₂ h2
  · -- wakeLe
    intro id₂
    by_cases he : id₂ = id₀
    · subst he
      have h0 : countWakes s.wakes id₂ = 0 := by
        by_contra hne
        have h1 : countWakes s.wakes id₂ = 1 := by
          have := hInv.wakeLe id₂
          omega
        have h2 := (hInv.wakeDone id₂ h1).2
        rw [hpe] at h2
        exact Option.noConfusion h2
      show countWakes (s.wakes ++ [(id₂, b)]) id₂ ≤ 1
      rw [countWakes_append_self, h0]
    · show countWakes (s.wakes ++ [(id₀, b)]) id₂ ≤ 1
      rw [countWakes_append_ne he]
      exact hInv.wakeLe id₂
  · -- wakeDone
    intro id₂ h
    by_cases he : id₂ = id₀
    · subst he
      refine ⟨hInv.entryWaited id₂ t₀ hpe, ?_⟩
      show alookup id₂ (aremove id₂ s.pending) = none
      rw [alookup_aremove_self]
    · have h2 : countWakes s.wakes id₂ = 1 := by
        have h3 : countWakes (s.wakes ++ [(id₀, b)]) id₂ = 1 := h
        rw [countWakes_append_ne he] at h3
        exact h3
      obtain ⟨hw, hpn⟩ := hInv.wakeDone id₂ h2
      refine ⟨hw, ?_⟩
      show alookup id₂ (aremove id₀ s.pending) = none
      rw [alookup_aremove_ne he]
      exact hpn

theorem inv_verify (c w : List String) (s : ManagerState) (id code : String)
    (now : Int) (hInv : MgrInv c w s) :
    MgrInv c w (TwoFactorAuthManager.verify s id code now).1 := by
  cases hp : alookup id s.pending with
  | none => rw [TwoFactorAuthManager.verify_eq_notFound s id code now hp]; exact hInv
  | some t =>
    cases hh : alookup id s.heap with
    | none => rw [TwoFactorAuthManager.verify_eq_ghost s id code now t hp hh]; exact hInv
    | some req =>
      by_cases hex : req.expiresAtMs < now
      · rw [TwoFactorAuthManager.verify_eq_expired s id code now t req hp hh hex]
        exact inv_resolve c w s id t _ false hInv hp
      · by_cases hc : jsToUpper (jsTrim code) = jsToUpper (jsTrim req.verificationCode)
        · rw [TwoFactorAuthManager.verify_eq_success s id code now t req hp hh hex hc]
          exact inv_resolve c w s id t _ true hInv hp
        · rw [TwoFactorAuthManager.verify_eq_invalid s id code now t req hp hh hex hc]
          exact hInv

theorem inv_cancel (c w : List String) (s : ManagerState) (id : String)
    (hInv : MgrInv c w s) :
    MgrInv c w (TwoFactorAuthManager.cancel s id).1 := by
  cases hp : alookup id s.pending with
  | none => rw [TwoFactorAuthManager.cancel_eq_notFound s id hp]; exact hInv
  | some t =>
    rw [TwoFactorAuthManager.cancel_eq_found s id t hp]
    exact inv_resolve c w s id t _ false hInv hp

theorem inv_timerFire (c w : List String) (s : ManagerState) (t : Nat)
    (hInv : MgrInv c w s) :
    MgrInv c w (TwoFactorAuthManager.timerFire s t) := by
  cases hq : alookup t s.timers with
  | none => rw [TwoFactorAuthManager.timerFire_eq_cleared s t hq]; exact hInv
  | some id =>
    rw [TwoFactorAuthManager.timerFire_eq_armed s t id hq]
    exact inv_resolve c w s id t _ false hInv (hInv.tp t id hq)

theorem inv_step (c w : List String) (s : ManagerState) (o : Op)
    (hInv : MgrInv c w s) (hok : opOk c w o = true) :
    MgrInv (opAcc c w o).1 (opAcc c w o).2 (mgrStep s o) := by
  cases o with
  | create payload now id rb =>
    have hid : id ∉ c := by
      simp [opOk] at hok
      exact hok
    exact inv_create c w s payload now id rb hInv hid
  | wait id now =>
    have hid : id ∉ w := by
      simp [opOk] at hok
      exact hok
    exact inv_wait c w s id now hInv hid
  | verify id code now => exact inv_verify c w s id code now hInv
  | cancel id => exact inv_cancel c w s id hInv
  | timerFire t => exact inv_timerFire c w s t hInv

theorem inv_run (ops : List Op) : ∀ (c w : List String) (s : ManagerState),
    MgrInv c w s → wfFrom c w ops = true →
    MgrInv (accAfter c w ops).1 (accAfter c w ops).2 (mgrRun s ops) := by
  induction ops with
  | nil => intro c w s hInv _; exact hInv
  | cons o rest ih =>
    intro c w s hInv hwf
    rw [wfFrom, Bool.and_eq_true] at hwf
    exact ih _ _ _ (inv_step c w s o hInv hwf.1) hwf.2

theorem heap_stable_step (c w : List String) (s : ManagerState) (o : Op)
    (id : String) (r : TwoFactorRequest)
    (hInv : MgrInv c w s) (hok : opOk c w o = true)
    (hh : alookup id s.heap = some r) (hst : r.status ≠ .pending) :
    alookup id (mgrStep s o).heap = some r := by
  cases o with
  | create payload now id₀ rb =>
    have hid : id₀ ∉ c := by
      simp [opOk] at hok
      exact hok
    have hne : id ≠ id₀ := by
      intro he
      exact hid (he ▸ hInv.heapCreated id r hh)
    show alookup id (TwoFactorAuthManager.create s payload now id₀ rb).1.heap = some r
    rw [TwoFactorAuthManager.create_state]
    show alookup id (aset id₀ _ s.heap) = some r
    rw [alookup_aset_ne hne]
    exact hh
  | wait id₀ now =>
    have hid₀ : id₀ ∉ w := by
      simp [opOk] at hok
      exact hok
    show alookup id (TwoFactorAuthManager.waitForVerification s id₀ now).1.heap = some r
    cases hq : alookup id₀ s.heap with
    | none =>
      rw [TwoFactorAuthManager.wait_eq_missing s id₀ now hq]
      exact hh
    | some req =>
      have hne : id ≠ id₀ := by
        intro he
        subst he
        rw [hq] at hh
        injection hh with hh
        exact hid₀ (hInv.terminalWaited id req hq (by rw [hh]; exact hst))
      by_cases hto : req.expiresAtMs - now ≤ 0
      · rw [TwoFactorAuthManager.wait_eq_expired s id₀ now req hq hto]
        show alookup id (aupdate id₀ _ s.heap) = some r
        rw [alookup_aupdate_ne hne]
        exact hh
      · rw [TwoFactorAuthManager.wait_eq_register s id₀ now req hq hto]
        exact hh
  | verify id₀ code now =>
    show alookup id (TwoFactorAuthManager.verify s id₀ code now).1.heap = some r
    cases hp : alookup id₀ s.pending with
    | none =>
      rw [TwoFactorAuthManager.verify_eq_notFound s id₀ code now hp]
      exact hh
    | some t =>
      have hne : id ≠ id₀ := by
        intro he
        subst he
        obtain ⟨r₀, hr₀, hrs₀⟩ := hInv.entryPending id t hp
        rw [hr₀] at hh
        injection hh with hh
        exact hst (hh ▸ hrs₀)
      cases hq : alookup id₀ s.heap with
      | none =>
        rw [TwoFactorAuthManager.verify_eq_ghost s id₀ code now t hp hq]
        exact hh
      | some req =>
        by_cases hex : req.expiresAtMs < now
        · rw [TwoFactorAuthManager.verify_eq_expired s id₀ code now t req hp hq hex]
          show alookup id (aupdate id₀ _ s.heap) = some r
          rw [alookup_aupdate_ne hne]
          exact hh
        · by_cases hc : jsToUpper (jsTrim code) = jsToUpper (jsTrim req.verificationCode)
          · rw [TwoFactorAuthManager.verify_eq_success s id₀ code now t req hp hq hex hc]
            show alookup id (aupdate id₀ _ s.heap) = some r
            rw [alookup_aupdate_ne hne]
            exact hh
          · rw [TwoFactorAuthManager.verify_eq_invalid s id₀ code now t req hp hq hex hc]
            exact hh
  | cancel id₀ =>
    show alookup id (TwoFactorAuthManager.cancel s id₀).1.heap = some r
    cases hp : alookup id₀ s.pending with
    | none =>
      rw [TwoFactorAuthManager.cancel_eq_notFound s id₀ hp]
      exact hh
    | some t =>
      have hne : id ≠ id₀ := by
        intro he
        subst he
        obtain ⟨r₀, hr₀, hrs₀⟩ := hInv.entryPending id t hp
        rw [hr₀] at hh
        injection hh with hh
        exact hst (hh ▸ hrs₀)
      rw [TwoFactorAuthManager.cancel_eq_found s id₀ t hp]
      show alookup id (aupdate id₀ _ s.heap) = some r
      rw [alookup_aupdate_ne hne]
      exact hh
  | timerFire t =>
    show alookup id (TwoFactorAuthManager.timerFire s t).heap = some r
    cases hq : alookup t s.timers with
    | none =>
      rw [TwoFactorAuthManager.timerFire_eq_cleared s t hq]
      exact hh
    | some id₀ =>
      have hp := hInv.tp t id₀ hq
      have hne : id ≠ id₀ := by
        intro he
        subst he
        obtain ⟨r₀, hr₀, hrs₀⟩ := hInv.entryPending id t hp
        rw [hr₀] at hh
        injection hh with hh
        exact hst (hh ▸ hrs₀)
      rw [TwoFactorAuthManager.timerFire_eq_armed s t id₀ hq]
      show alookup id (aupdate id₀ _ s.heap) = some r
      rw [alookup_aupdate_ne hne]
      exact hh

theorem heap_stable_run (ops : List Op) :
    ∀ (c w : List String) (s : ManagerState) (id : String) (r : TwoFactorRequest),
    MgrInv c w s → wfFrom c w ops = true →
    alookup id s.heap = some r → r.status ≠ .pending →
    alookup id (mgrRun s ops).heap = some r := by
  induction ops with
  | nil => intro c w s id r _ _ hh _; exact hh
  | cons o rest ih =>
    intro c w s id r hInv hwf hh hst
    rw [wfFrom, Bool.and_eq_true] at hwf
    exact ih _ _ _ id r (inv_step c w s o hInv hwf.1) hwf.2
      (heap_stable_step c w s o id r hInv hwf.1 hh hst) hst

/-! ## Further helper lemmas -/

theorem getRequest_eq_none (s : ManagerState) (id : String)
    (h : alookup id s.pending = none) :
    TwoFactorAuthManager.getRequest s id = none := by
  unfold TwoFactorAuthManager.getRequest
  rw [h]

/-- C1 (counterexample): as stated over arbitrary call sequences the claim
fails. After create, wait, cancel — the cancel performing the terminal
transition and waking the waiter — a second `waitForVerification` on the
same request re-registers it; a subsequent `verify` with the correct code
then succeeds instead of failing with the not-found error, and the
request's waiters have been woken twice. -/
theorem c1_counterexample :
    (TwoFactorAuthManager.verify (mgrRun (initManager mockCfg) traceDoubleWait)
        "r1" "123456" 0).2 = { success := true, error := none } ∧
    countWakes (TwoFactorAuthManager.verify (mgrRun (initManager mockCfg) traceDoubleWait)
        "r1" "123456" 0).1.wakes "r1" = 2 := by
  decide

/-- C1 (amended): under any well-formed interleaving (fresh ids at create,
at most one `waitForVerification` per request id — the protocol every
caller follows), each request id is woken at most once, every pending
entry still holds a pending-status request (a terminal transition always
removes the entry), and once no entry exists for an id, `verify` fails
with the not-found error and `cancel` returns false, both leaving the
state unchanged. -/
theorem c1_exactly_once_resolution
    (config : TwoFactorConfig) (ops : List Op) (id code : String) (now : Int)
    (hwf : wfTrace ops = true) :
    countWakes (mgrRun (initManager config) ops).wakes id ≤ 1 ∧
    (∀ t, alookup id (mgrRun (initManager config) ops).pending = some t →
      ∃ r, alookup id (mgrRun (initManager config) ops).heap = some r ∧
        r.status = .pending) ∧
    (alookup id (mgrRun (initManager config) ops).pending = none →
      TwoFactorAuthManager.verify (mgrRun (initManager config) ops) id code now =
        (mgrRun (initManager config) ops,
         { success := false, error := some "Request not found or expired" }) ∧
      TwoFactorAuthManager.cancel (mgrRun (initManager config) ops) id =
        (mgrRun (initManager config) ops, false)) := by
  have hInv := inv_run ops [] [] (initManager config) (inv_init config) hwf
  exact ⟨hInv.wakeLe id, fun t ht => hInv.entryPending id t ht,
    fun hnone =>
      ⟨TwoFactorAuthManager.verify_eq_notFound _ _ _ _ hnone,
       TwoFactorAuthManager.cancel_eq_notFound _ _ hnone⟩⟩

/-- C1 (witness): a concrete well-formed trace through create, wait and
cancel wakes the waiter of "r1" at most once. -/
theorem c1_witness :
    countWakes (mgrRun (initManager mockCfg) traceCancelled).wakes "r1" ≤ 1 :=
  (c1_exactly_once_resolution mockCfg traceCancelled "r1" "123456" 0 (by decide)).1

/-- C2 (counterexample): as stated over arbitrary operation sequences the
claim fails. After create, wait, cancel the status is the terminal value
cancelled; re-entering `waitForVerification` and submitting the correct
code afterwards moves the same request to verified — a second status
change out of a terminal value. -/
theorem c2_counterexample :
    (alookup "r1" (mgrRun (initManager mockCfg) traceCancelled).heap).map
        (fun r => r.status) = some .cancelled ∧
    (alookup "r1" (mgrRun (initManager mockCfg) traceRevived).heap).map
        (fun r => r.status) = some .verified := by
  decide

/-- C2 (amended): `create` returns the request with status pending, and
under any well-formed interleaving (fresh ids at create, at most one
`waitForVerification` per request id), once a request's status holds a
value other than pending, the whole record — status included — is
unchanged by any continuation of the trace. -/
theorem c2_status_single_transition
    (config : TwoFactorConfig) (ops₁ ops₂ : List Op) (id : String)
    (r : TwoFactorRequest)
    (s : ManagerState) (payload : TwoFactorRequestPayload) (now : Int)
    (freshId : String) (rb : Nat → Nat)
    (hwf : wfTrace (ops₁ ++ ops₂) = true)
    (h1 : alookup id (mgrRun (initManager config) ops₁).heap = some r)
    (h2 : r.status ≠ .pending) :
    (TwoFactorAuthManager.create s payload now freshId rb).2.status = .pending ∧
    alookup id (mgrRun (initManager config) (ops₁ ++ ops₂)).heap = some r := by
  constructor
  · exact TwoFactorAuthManager.create_status s payload now freshId rb
  · rw [mgrRun_append]
    obtain ⟨hwf1, hwf2⟩ := wfFrom_append hwf
    have hInv := inv_run ops₁ [] [] (initManager config) (inv_init config) hwf1
    exact heap_stable_run ops₂ _ _ _ id r hInv hwf2 h1 h2

/-- C2 (witness): the cancelled request of the concrete trace keeps its
record unchanged through a further (correct-code) verify attempt. -/
theorem c2_witness :
    (TwoFactorAuthManager.create (initManager mockCfg) payloadA 0 "r2" rbZero).2.status =
      .pending ∧
    alookup "r1" (mgrRun (initManager mockCfg)
        (traceCancelled ++ [.verify "r1" "123456" 0])).heap =
      some { id := "r1", command := "rm -rf /", verificationCode := "123456",
             createdAtMs := 0, expiresAtMs := 300000, status := .cancelled } :=
  c2_status_single_transition mockCfg traceCancelled [.verify "r1" "123456" 0] "r1"
    { id := "r1", command := "rm -rf /", verificationCode := "123456",
      createdAtMs := 0, expiresAtMs := 300000, status := .cancelled }
    (initManager mockCfg) payloadA 0 "r2" rbZero
    (by decide) (by decide) (by decide)

/-- C3 (counterexample): after `create` and before any wait, `getRequest`
reports not found (`null`) even though the created request exists and is
pending — the claim that inspection by id returns the request fails,
because `create` never inserts into the pending table that `getRequest`
reads. -/
theorem c3_counterexample :
    TwoFactorAuthManager.getRequest sCreated "r1" = none ∧
    (alookup "r1" sCreated.heap).map (fun r => r.status) = some .pending := by
  decide

/-- C3 (amended): after `create(payload)` and before anyone calls
`waitForVerification`, no deadline timer is registered and the pending
table is untouched; inspecting the fresh id with `getRequest` returns
null (not found) — the request is only inspectable through the value
`create` returned. -/
theorem c3_create_no_timer_not_inspectable
    (s : ManagerState) (payload : TwoFactorRequestPayload) (now : Int)
    (freshId : String) (rb : Nat → Nat)
    (h : alookup freshId s.pending = none) :
    (TwoFactorAuthManager.create s payload now freshId rb).1.pending = s.pending ∧
    (TwoFactorAuthManager.create s payload now freshId rb).1.timers = s.timers ∧
    TwoFactorAuthManager.getRequest
      (TwoFactorAuthManager.create s payload now freshId rb).1 freshId = none := by
  refine ⟨rfl, rfl, ?_⟩
  exact getRequest_eq_none _ freshId h

/-- C3 (witness): the amended statement at a fresh manager. -/
theorem c3_witness :
    (TwoFactorAuthManager.create (initManager mockCfg) payloadA 0 "r1" rbZero).1.pending =
      (initManager mockCfg).pending ∧
    (TwoFactorAuthManager.create (initManager mockCfg) payloadA 0 "r1" rbZero).1.timers =
      (initManager mockCfg).timers ∧
    TwoFactorAuthManager.getRequest
      (TwoFactorAuthManager.create (initManager mockCfg) payloadA 0 "r1" rbZero).1
      "r1" = none :=
  c3_create_no_timer_not_inspectable (initManager mockCfg) payloadA 0 "r1" rbZero
    (by decide)

/-- C4: `cancel` on a live pending (unresolved, unexpired) request clears
its timer, removes the entry, marks the request cancelled, wakes the
waiter with false and returns true; `cancel` on an id with no pending
entry (unknown or already resolved) returns false and changes nothing. -/
theorem c4_cancel_semantics
    (s : ManagerState) (id : String) (t : Nat) (r : TwoFactorRequest) (now : Int)
    (hp : alookup id s.pending = some t)
    (hh : alookup id s.heap = some r)
    (hst : r.status = .pending)
    (hlive : now < r.expiresAtMs)
    (s₂ : ManagerState) (id₂ : String)
    (h₂ : alookup id₂ s₂.pending = none) :
    (TwoFactorAuthManager.cancel s id).2 = true ∧
    alookup id (TwoFactorAuthManager.cancel s id).1.pending = none ∧
    alookup t (TwoFactorAuthManager.cancel s id).1.timers = none ∧
    alookup id (TwoFactorAuthManager.cancel s id).1.heap =
      some { r with status := .cancelled } ∧
    (TwoFactorAuthManager.cancel s id).1.wakes = s.wakes ++ [(id, false)] ∧
    TwoFactorAuthManager.cancel s₂ id₂ = (s₂, false) := by
  rw [TwoFactorAuthManager.cancel_eq_found s id t hp]
  refine ⟨rfl, ?_, ?_, ?_, rfl, TwoFactorAuthManager.cancel_eq_notFound s₂ id₂ h₂⟩
  · show alookup id (aremove id s.pending) = none
    rw [alookup_aremove_self]
  · show alookup t (aremove t s.timers) = none
    rw [alookup_aremove_self]
  · show alookup id (aupdate id _ s.heap) = some _
    rw [alookup_aupdate_self, hh]
    rfl

/-- C4 (witness): cancelling the registered request "r1". -/
theorem c4_witness :
    (TwoFactorAuthManager.cancel sReg "r1").2 = true ∧
    alookup "r1" (TwoFactorAuthManager.cancel sReg "r1").1.pending = none ∧
    alookup "r1" (TwoFactorAuthManager.cancel sReg "r1").1.heap =
      some { reqA with status := .cancelled } := by
  have h := c4_cancel_semantics sReg "r1" 0 reqA 5 (by decide) (by decide)
    (by decide) (by decide) sCreated "r1" (by decide)
  exact ⟨h.1, h.2.1, h.2.2.2.1⟩

/-- C5: on a pending, unexpired entry, submitting a non-matching code
(after trimming and uppercasing both sides) fails with the invalid-code
error and leaves the whole state — table entry, timer, all request
fields — unchanged; a subsequent submission of the correct code before
the deadline still performs the verified transition. -/
theorem c5_wrong_code_then_retry
    (s : ManagerState) (id : String) (t : Nat) (r : TwoFactorRequest)
    (code : String) (now : Int) (code₂ : String) (now₂ : Int)
    (hp : alookup id s.pending = some t)
    (hh : alookup id s.heap = some r)
    (hex : ¬(r.expiresAtMs < now))
    (hne : jsToUpper (jsTrim code) ≠ jsToUpper (jsTrim r.verificationCode))
    (hex₂ : ¬(r.expiresAtMs < now₂))
    (heq : jsToUpper (jsTrim code₂) = jsToUpper (jsTrim r.verificationCode)) :
    TwoFactorAuthManager.verify s id code now =
      (s, { success := false, error := some "Invalid verification code" }) ∧
    (TwoFactorAuthManager.verify s id code₂ now₂).2 =
      { success := true, error := none } ∧
    alookup id (TwoFactorAuthManager.verify s id code₂ now₂).1.heap =
      some { r with status := .verified, resolvedAtMs := some now₂ } ∧
    alookup id (TwoFactorAuthManager.verify s id code₂ now₂).1.pending = none ∧
    (TwoFactorAuthManager.verify s id code₂ now₂).1.wakes =
      s.wakes ++ [(id, true)] := by
  refine ⟨TwoFactorAuthManager.verify_eq_invalid s id code now t r hp hh hex hne,
    ?_, ?_, ?_, ?_⟩ <;>
    rw [TwoFactorAuthManager.verify_eq_success s id code₂ now₂ t r hp hh hex₂ heq]
  · show alookup id (aupdate id _ s.heap) = some _
    rw [alookup_aupdate_self, hh]
    rfl
  · show alookup id (aremove id s.pending) = none
    rw [alookup_aremove_self]

/-- C5 (witness): a wrong code against "r1" (stored code "123456") is
rejected without consuming the request, and a padded, lower/upper-mixed
correct code afterwards verifies it. -/
theorem c5_witness :
    TwoFactorAuthManager.verify sReg "r1" "WRONG" 5 =
      (sReg, { success := false, error := some "Invalid verification code" }) ∧
    (TwoFactorAuthManager.verify sReg "r1" " 123456 " 10).2 =
      { success := true, error := none } := by
  have h := c5_wrong_code_then_retry sReg "r1" 0 reqA "WRONG" 5 " 123456 " 10
    (by decide) (by decide) (by decide) (by decide) (by decide) (by decide)
  exact ⟨h.1, h.2.1⟩

/-- C6: a code submission that finds the entry present but the deadline
already passed performs the expire transition itself — removes the entry,
clears the timer, marks the request expired, wakes the waiter with
false — and fails with the expired error, for any submitted code. -/
theorem c6_verify_expired_discovery
    (s : ManagerState) (id : String) (t : Nat) (r : TwoFactorRequest)
    (code : String) (now : Int)
    (hp : alookup id s.pending = some t)
    (hh : alookup id s.heap = some r)
    (hex : r.expiresAtMs < now) :
    (TwoFactorAuthManager.verify s id code now).2 =
      { success := false, error := some "Request expired" } ∧
    alookup id (TwoFactorAuthManager.verify s id code now).1.pending = none ∧
    alookup t (TwoFactorAuthManager.verify s id code now).1.timers = none ∧
    alookup id (TwoFactorAuthManager.verify s id code now).1.heap =
      some { r with status := .expired } ∧
    (TwoFactorAuthManager.verify s id code now).1.wakes =
      s.wakes ++ [(id, false)] := by
  rw [TwoFactorAuthManager.verify_eq_expired s id code now t r hp hh hex]
  refine ⟨rfl, ?_, ?_, ?_, rfl⟩
  · show alookup id (aremove id s.pending) = none
    rw [alookup_aremove_self]
  · show alookup t (aremove t s.timers) = none
    rw [alookup_aremove_self]
  · show alookup id (aupdate id _ s.heap) = some _
    rw [alookup_aupdate_self, hh]
    rfl

/-- C6 (witness): submitting even the correct code after the deadline
expires the registered request "r1". -/
theorem c6_witness :
    (TwoFactorAuthManager.verify sReg "r1" "123456" 300001).2 =
      { success := false, error := some "Request expired" } ∧
    alookup "r1" (TwoFactorAuthManager.verify sReg "r1" "123456" 300001).1.heap =
      some { reqA with status := .expired } := by
  have h := c6_verify_expired_discovery sReg "r1" 0 reqA "123456" 300001
    (by decide) (by decide) (by decide)
  exact ⟨h.1, h.2.2.2.1⟩

/-- C7: `waitForVerification` on a request whose deadline already passed
returns false immediately with the status set to expired, registers no
timer and adds no table entry; a subsequent code submission on that id
fails (reported by the combined not-found-or-expired error, the form the
expired condition takes for an unregistered id). -/
theorem c7_wait_already_expired
    (s : ManagerState) (id : String) (r : TwoFactorRequest) (now : Int)
    (code : String) (now₂ : Int)
    (hh : alookup id s.heap = some r)
    (hex : r.expiresAtMs < now)
    (hp : alookup id s.pending = none) :
    (TwoFactorAuthManager.waitForVerification s id now).2 = some false ∧
    alookup id (TwoFactorAuthManager.waitForVerification s id now).1.heap =
      some { r with status := .expired } ∧
    (TwoFactorAuthManager.waitForVerification s id now).1.pending = s.pending ∧
    (TwoFactorAuthManager.waitForVerification s id now).1.timers = s.timers ∧
    TwoFactorAuthManager.verify
        (TwoFactorAuthManager.waitForVerification s id now).1 id code now₂ =
      ((TwoFactorAuthManager.waitForVerification s id now).1,
       { success := false, error := some "Request not found or expired" }) := by
  have hto : r.expiresAtMs - now ≤ 0 := by omega
  rw [TwoFactorAuthManager.wait_eq_expired s id now r hh hto]
  refine ⟨rfl, ?_, rfl, rfl, ?_⟩
  · show alookup id (aupdate id _ s.heap) = some _
    rw [alookup_aupdate_self, hh]
    rfl
  · exact TwoFactorAuthManager.verify_eq_notFound _ id code now₂ hp

/-- C7 (witness): waiting on "r1" past its deadline and submitting its
correct code afterwards. -/
theorem c7_witness :
    (TwoFactorAuthManager.waitForVerification sCreated "r1" 300001).2 = some false ∧
    TwoFactorAuthManager.verify
        (TwoFactorAuthManager.waitForVerification sCreated "r1" 300001).1
        "r1" "123456" 300002 =
      ((TwoFactorAuthManager.waitForVerification sCreated "r1" 300001).1,
       { success := false, error := some "Request not found or expired" }) := by
  have h := c7_wait_already_expired sCreated "r1" reqA 300001 "123456" 300002
    (by decide) (by decide) (by decide)
  exact ⟨h.1, h.2.2.2.2⟩

/-- C9: every code from the non-mock generator has exactly the requested
length, over the 32-character alphabet that omits 0, O, 1 and I; and with
the mock override enabled, `create` stores the configured mock code
trimmed, falling back to "123456" when it is blank or absent. -/
theorem c9_code_generation
    (len : Nat) (rb : Nat → Nat)
    (s : ManagerState) (payload : TwoFactorRequestPayload) (now : Int)
    (freshId : String) (m : MockConfig)
    (hm : s.config.mock = some m) (hme : m.enabled = some true) :
    (generateVerificationCode len rb).length = len ∧
    (∀ ch ∈ (generateVerificationCode len rb).data, ch ∈ codeChars.data) ∧
    (codeChars.length = 32 ∧ '0' ∉ codeChars.data ∧ 'O' ∉ codeChars.data ∧
      '1' ∉ codeChars.data ∧ 'I' ∉ codeChars.data) ∧
    (TwoFactorAuthManager.create s payload now freshId rb).2.verificationCode =
      (match m.code with
       | some c => if jsTrim c = "" then "123456" else jsTrim c
       | none => "123456") := by
  refine ⟨?_, ?_, by decide, ?_⟩
  · show ((List.range len).map
        (fun i => codeChars.data.getD (rb i % codeChars.length) 'A')).length = len
    rw [List.length_map, List.length_range]
  · intro ch hch
    have hch2 : ch ∈ (List.range len).map
        (fun i => codeChars.data.getD (rb i % codeChars.length) 'A') := hch
    obtain ⟨i, _, hi⟩ := List.mem_map.mp hch2
    have hlt : rb i % codeChars.length < codeChars.data.length := by
      have h32 : codeChars.length = 32 := by decide
      have hd : codeChars.data.length = 32 := by decide
      rw [h32, hd]
      exact Nat.mod_lt _ (by norm_num)
    rw [← hi, List.getD_eq_getElem _ _ hlt]
    exact List.getElem_mem hlt
  · show (TwoFactorAuthManager.create s payload now freshId rb).2.verificationCode = _
    unfold TwoFactorAuthManager.create
    rw [hm]
    simp [hme]

/-- C9 (witness): a six-character generated code, and `create` under a
mock config holding the padded code " ab12cd " stores "ab12cd". -/
theorem c9_witness :
    (generateVerificationCode 6 rbZero).length = 6 ∧
    (TwoFactorAuthManager.create (initManager mockCfgPadded) payloadA 0 "r1"
        rbZero).2.verificationCode = "ab12cd" := by
  have h := c9_code_generation 6 rbZero (initManager mockCfgPadded) payloadA 0 "r1"
    { enabled := some true, authUrl := none, code := some " ab12cd " } rfl rfl
  refine ⟨h.1, ?_⟩
  rw [h.2.2.2]
  decide

/-- C10: at the exact deadline instant (current time equal to
`expiresAtMs`), the two expiry checks disagree: `waitForVerification`
settles immediately as expired (non-strict check), while `verify` on a
pending entry still accepts a correct code (strict check), so a request
at the boundary can still be verified through submit but can no longer
begin a wait. -/
theorem c10_boundary_instant
    (s₁ : ManagerState) (id₁ : String) (r₁ : TwoFactorRequest) (now₁ : Int)
    (s₂ : ManagerState) (id₂ : String) (t₂ : Nat) (r₂ : TwoFactorRequest)
    (code : String) (now₂ : Int)
    (hh₁ : alookup id₁ s₁.heap = some r₁)
    (hb₁ : r₁.expiresAtMs = now₁)
    (hp₂ : alookup id₂ s₂.pending = some t₂)
    (hh₂ : alookup id₂ s₂.heap = some r₂)
    (hb₂ : r₂.expiresAtMs = now₂)
    (heq : jsToUpper (jsTrim code) = jsToUpper (jsTrim r₂.verificationCode)) :
    (TwoFactorAuthManager.waitForVerification s₁ id₁ now₁).2 = some false ∧
    alookup id₁ (TwoFactorAuthManager.waitForVerification s₁ id₁ now₁).1.heap =
      some { r₁ with status := .expired } ∧
    (TwoFactorAuthManager.waitForVerification s₁ id₁ now₁).1.pending = s₁.pending ∧
    (TwoFactorAuthManager.verify s₂ id₂ code now₂).2 =
      { success := true, error := none } ∧
    alookup id₂ (TwoFactorAuthManager.verify s₂ id₂ code now₂).1.heap =
      some { r₂ with status := .verified, resolvedAtMs := some now₂ } := by
  have hto : r₁.expiresAtMs - now₁ ≤ 0 := by omega
  have hex : ¬(r₂.expiresAtMs < now₂) := by omega
  rw [TwoFactorAuthManager.wait_eq_expired s₁ id₁ now₁ r₁ hh₁ hto,
    TwoFactorAuthManager.verify_eq_success s₂ id₂ code now₂ t₂ r₂ hp₂ hh₂ hex heq]
  refine ⟨rfl, ?_, rfl, rfl, ?_⟩
  · show alookup id₁ (aupdate id₁ _ s₁.heap) = some _
    rw [alookup_aupdate_self, hh₁]
    rfl
  · show alookup id₂ (aupdate id₂ _ s₂.heap) = some _
    rw [alookup_aupdate_self, hh₂]
    rfl

/-- C10 (witness): at time 300000 — the deadline of "r1" — waiting
settles as expired, while submitting the correct code verifies. -/
theorem c10_witness :
    (TwoFactorAuthManager.waitForVerification sCreated "r1" 300000).2 = some false ∧
    (TwoFactorAuthManager.verify sReg "r1" "123456" 300000).2 =
      { success := true, error := none } := by
  have h := c10_boundary_instant sCreated "r1" reqA 300000 sReg "r1" 0 reqA
    "123456" 300000 (by decide) (by decide) (by decide) (by decide) (by decide)
    (by decide)
  exact ⟨h.1, h.2.2.2.1⟩

